import Mathlib

/-!
Shallow embedding of r128.h (128-bit Q64.64 signed fixed-point arithmetic,
a single-header C library) and proofs about the claims of its specification.

A value is a pair of 64-bit unsigned limbs `lo` (fraction) and `hi` (integer
part, top bit = sign).  Machine words are modelled as `Nat` with explicit
`% 2^64` (or `% 2^128`) wherever the C code can wrap.  Each definition below
is translated from the function of the same name in r128.h; the 64-bit
(`__x86_64__`) code paths are the ones embedded, since all architecture
branches of the wide primitives compute the same function.
-/

/-- 2^64, the limb modulus (`R128_U64` wraps at this). -/
def W64 : Nat := 2 ^ 64

/-- 2^128, the modulus of a full `R128` word and of `unsigned __int128`. -/
def W128 : Nat := 2 ^ 128

/-- `typedef struct R128 { R128_U64 lo; R128_U64 hi; }`. -/
structure R128 where
  lo : Nat
  hi : Nat
deriving DecidableEq, Repr

/-- Well-formedness: both limbs are 64-bit values. -/
abbrev R128.wf (v : R128) : Prop := v.lo < W64 ∧ v.hi < W64

/-- `R128_min = { 0, 0x8000000000000000 }`. -/
def R128_min : R128 := ⟨0, 0x8000000000000000⟩

/-- `R128_max = { 0xffffffffffffffff, 0x7fffffffffffffff }`. -/
def R128_max : R128 := ⟨0xffffffffffffffff, 0x7fffffffffffffff⟩

/-- `R128_smallest = { 1, 0 }`. -/
def R128_smallest : R128 := ⟨1, 0⟩

/-- `R128_zero = { 0, 0 }`. -/
def R128_zero : R128 := ⟨0, 0⟩

/-- `R128_one = { 0, 1 }`. -/
def R128_one : R128 := ⟨0, 1⟩

/-- `char R128_decimal = '.'` (the process-global separator, default value). -/
def R128_decimal : Char := '.'

/-- Reinterpret a 64-bit unsigned value as signed, i.e. `(R128_S64)x`. -/
def s64 (x : Nat) : Int := if x < 2 ^ 63 then (x : Int) else (x : Int) - (W64 : Int)

/-- `r128IsNeg(v)`: `(R128_S64)v->hi < 0`. -/
def r128IsNeg (v : R128) : Bool := decide (s64 v.hi < 0)

/-- `r128Neg`: two's-complement negation, `~src + 1` with carry between limbs. -/
def r128Neg (v : R128) : R128 :=
  ⟨(W64 - 1 - v.lo + 1) % W64,
   (W64 - 1 - v.hi + (W64 - 1 - v.lo + 1) / W64) % W64⟩

/-- `r128Add`: limbwise addition with carry propagation. -/
def r128Add (a b : R128) : R128 :=
  ⟨(a.lo + b.lo) % W64, (a.hi + b.hi + (a.lo + b.lo) / W64) % W64⟩

/-- `r128Sub`: limbwise subtraction with borrow propagation. -/
def r128Sub (a b : R128) : R128 :=
  ⟨(a.lo + W64 - b.lo) % W64,
   (a.hi + 2 * W64 - b.hi - (if a.lo < b.lo then 1 else 0)) % W64⟩

/-- `r128__umul128(a, b)`: the widening 64×64→128 multiply primitive, result
as an `R128` pair (low, high). -/
def r128__umul128 (a b : Nat) : R128 := ⟨a * b % W64, a * b / W64⟩

/-- `r128__udiv128(nlo, nhi, d)`: the 128÷64→64 divide primitive; returns
(quotient, remainder) of `(nhi:nlo) / d`.  The C code requires `d ≠ 0` and
`nhi < d` (asserted); under that precondition the quotient fits in 64 bits. -/
def r128__udiv128 (nlo nhi d : Nat) : Nat × Nat :=
  ((nhi * W64 + nlo) / d, (nhi * W64 + nlo) % d)

/-- Bit length of a natural number, by halving; 64 fuel suffices for any
64-bit value. -/
def bitLenFuel : Nat → Nat → Nat
  | 0, _ => 0
  | fuel + 1, x => if x = 0 then 0 else bitLenFuel fuel (x / 2) + 1

/-- `r128__clz64(x)`: count of leading zero bits of a 64-bit value,
64 for `x = 0`. -/
def r128__clz64 (x : Nat) : Nat := 64 - bitLenFuel 64 x

/-- `r128__ucmp(a, b)`, exactly as written in the source:

    if (a->hi == b->hi) { if (a->hi > b->hi) return 1; else return -1; }
    else if (a->lo == b->lo) return 0;
    else if (a->lo > b->lo) return 1; else return -1;
-/
def r128__ucmp (a b : R128) : Int :=
  if a.hi = b.hi then
    if a.hi > b.hi then 1 else -1
  else if a.lo = b.lo then 0
  else if a.lo > b.lo then 1 else -1

/-- `r128__umul(a, b)`: Q64.64 magnitude multiply (the `__x86_64__` branch):
`p0 = lo·lo`, `p1 = lo·hi`, `p2 = hi·lo`, `p3 = hi·hi`, result
`(p3 << 64) + p2 + p1 + (p0 >> 64) + (low half of p0 >> 63)` in 128 bits. -/
def r128__umul (a b : R128) : R128 :=
  ⟨(a.hi * b.hi * W64 + a.hi * b.lo + a.lo * b.hi
      + a.lo * b.lo / W64 + a.lo * b.lo % W64 / 2 ^ 63) % W128 % W64,
   (a.hi * b.hi * W64 + a.hi * b.lo + a.lo * b.hi
      + a.lo * b.lo / W64 + a.lo * b.lo % W64 / 2 ^ 63) % W128 / W64⟩

/-- `r128Mul`: strip signs, magnitude multiply, reapply sign. -/
def r128Mul (a b : R128) : R128 :=
  let ta := if r128IsNeg a then r128Neg a else a
  let tb := if r128IsNeg b then r128Neg b else b
  let tc := r128__umul ta tb
  if xor (r128IsNeg a) (r128IsNeg b) then r128Neg tc else tc

/-- `r128__norm(n, d, n2)`: shift divisor `d` left until its high bit is set,
shifting the dividend `n` by the same amount with the spill word returned as
the third component; the fourth component is the overflow flag (non-zero
return of the C function).  Translated branch for branch from the source. -/
def r128__norm (n d : R128) : R128 × R128 × Nat × Bool :=
  if d.hi ≠ 0 then
    let shift := r128__clz64 d.hi
    if shift ≠ 0 then
      (⟨(n.lo <<< shift) % W64, ((n.hi <<< shift) % W64 ||| (n.lo >>> (64 - shift)))⟩,
       ⟨(d.lo <<< shift) % W64, ((d.hi <<< shift) % W64 ||| (d.lo >>> (64 - shift)))⟩,
       n.hi >>> (64 - shift), false)
    else
      (n, d, 0, false)
  else
    let shift := r128__clz64 d.lo
    if r128__clz64 n.hi ≥ shift then
      (n, d, 0, true)
    else if shift ≠ 0 then
      (⟨0, (n.lo <<< shift) % W64⟩, ⟨0, (d.lo <<< shift) % W64⟩,
       ((n.hi <<< shift) % W64 ||| (n.lo >>> (64 - shift))), false)
    else
      (⟨0, n.lo⟩, ⟨0, d.lo⟩, n.hi, false)

/-- Fuel bound for the quotient-digit refinement loop (`refine1`/`refine0`).
The loop decrements a 64-bit digit each pass, so it cannot make more than
`2^64 + 1` passes. -/
def refineFuel : Nat := W64 + 2

/-- The `refine1`/`refine0` loop of `r128__udiv` (and `r128__umod`), exactly
as in the source, including the `r128__ucmp` trigger and the add-back of the
enclosing block's `n1` limb:

    refine: umul128(&t1, q, d0);
            if (ucmp(&t1, &t0) > 0) { --q;
              if (t0.hi < ~n1 + 1) { t0.hi += n1; goto refine; } }

`addback` is the `n1` of the enclosing scope.  Returns the refined digit and
the final `t0`. -/
def r128__refine (d0 addback : Nat) : Nat → Nat → R128 → Nat × R128
  | 0, q, t0 => (q, t0)
  | fuel + 1, q, t0 =>
    if r128__ucmp (r128__umul128 q d0) t0 > 0 then
      if t0.hi < (W64 - addback) % W64 then
        r128__refine d0 addback fuel ((q + W64 - 1) % W64) ⟨t0.lo, (t0.hi + addback) % W64⟩
      else ((q + W64 - 1) % W64, t0)
    else (q, t0)

/-- `r128__udiv(quotient, dividend, divisor)`: 256÷128 fixed-point division
kernel on magnitudes; the dividend is implicitly scaled by 2^64 (the fourth
limb is 0).  Mirrors the source: normalize, two quotient digits each produced
by the 128÷64 primitive plus the refinement loop, with `q1·D` subtracted from
the top limbs in between. -/
def r128__udiv (dividend divisor : R128) : R128 :=
  let nd := r128__norm dividend divisor
  if nd.2.2.2 then R128_max
  else
    let d1 := nd.2.1.hi
    let d0 := nd.2.1.lo
    let n3 := nd.2.2.1
    let n2 := nd.1.hi
    let n1 := nd.1.lo
    -- first digit
    let qr1 := r128__udiv128 n2 n3 d1
    let qhi := (r128__refine d0 n1 refineFuel qr1.1 ⟨n1, qr1.2⟩).1
    -- tmp = (n2:n1) - (q1*d0 + (q1*d1 << 64))
    let t2 := r128__umul128 qhi d1
    let tmp := r128Sub ⟨n1, n2⟩ (r128Add (r128__umul128 qhi d0) ⟨0, t2.lo⟩)
    -- second digit
    let qr0 := r128__udiv128 tmp.lo tmp.hi d1
    let qlo := (r128__refine d0 tmp.lo refineFuel qr0.1 ⟨0, qr0.2⟩).1
    ⟨qlo, qhi⟩

/-- `r128Div`: extract the dividend's sign, saturate on a zero divisor
(`MAX` for a non-negative dividend, `MIN` for a negative one), otherwise
divide magnitudes with `r128__udiv` and reapply the combined sign. -/
def r128Div (a b : R128) : R128 :=
  let tn := if r128IsNeg a then r128Neg a else a
  if b.lo = 0 ∧ b.hi = 0 then
    (if r128IsNeg a then R128_min else R128_max)
  else
    let td := if r128IsNeg b then r128Neg b else b
    let tq := r128__udiv tn td
    if xor (r128IsNeg a) (r128IsNeg b) then r128Neg tq else tq

/-- `r128Shl(dst, src, amount)`: left shift; the amount is masked with 127
(`amount &= 127`, i.e. reduced modulo 128, also for negative C ints). -/
def r128Shl (v : R128) (amount : Int) : R128 :=
  let a := (amount % 128).toNat
  if a ≥ 64 then ⟨0, (v.lo <<< (a - 64)) % W64⟩
  else if a ≠ 0 then
    ⟨(v.lo <<< a) % W64, ((v.hi <<< a) % W64 ||| (v.lo >>> (64 - a)))⟩
  else v

/-- `r128Shr(dst, src, amount)`: logical right shift, amount masked with 127. -/
def r128Shr (v : R128) (amount : Int) : R128 :=
  let a := (amount % 128).toNat
  if a ≥ 64 then ⟨v.hi >>> (a - 64), 0⟩
  else if a ≠ 0 then
    ⟨((v.lo >>> a) ||| (v.hi <<< (64 - a)) % W64), v.hi >>> a⟩
  else v

/-- `r128ToInt(v)`: `(R128_S64)v->hi`. -/
def r128ToInt (v : R128) : Int := s64 v.hi

/-- `r128FromInt(dst, v)`: `lo = 0`, `hi = (R128_U64)v`. -/
def r128FromInt (i : Int) : R128 := ⟨0, (i % (W64 : Int)).toNat⟩

/-- `r128Floor(dst, v)`, exactly as in the source: zero `lo`; if the signed
`hi` is negative, subtract `(v->lo != 0)` from `hi`. -/
def r128Floor (v : R128) : R128 :=
  if s64 v.hi < 0 then
    ⟨0, (v.hi + W64 - (if v.lo ≠ 0 then 1 else 0)) % W64⟩
  else ⟨0, v.hi⟩

/-- `r128Ceil(dst, v)`, exactly as in the source: zero `lo`; if the signed
`hi` is positive, add `(v->lo != 0)` to `hi`. -/
def r128Ceil (v : R128) : R128 :=
  if s64 v.hi > 0 then
    ⟨0, (v.hi + (if v.lo ≠ 0 then 1 else 0)) % W64⟩
  else ⟨0, v.hi⟩

/-- `enum R128ToStringSign`. -/
inductive R128ToStringSign
  | default
  | space
  | plus
deriving DecidableEq, Repr

/-- `struct R128ToStringFormat` (`width` and `precision` are C `int`s). -/
structure R128ToStringFormat where
  sign : R128ToStringSign
  width : Int
  precision : Int
  zeroPad : Bool
  decimal : Bool
  leftAlign : Bool
deriving DecidableEq, Repr

/-- `R128__defaultFormat = { Default, 0, -1, 0, 0, 0 }`. -/
def R128__defaultFormat : R128ToStringFormat :=
  ⟨.default, 0, -1, false, false, false⟩

/-- `(char)d + '0'`. -/
def digitChar (d : Nat) : Char := Char.ofNat (48 + d)

/-- The fractional-digit loop of `r128__format`:

    while (tmp.lo || (fullPrecision && precision)) {
       if ((int)(cursor - buf) == precision) {
          if ((R128_S64)tmp.lo < 0) { round up ... }
          break;
       }
       r128__umul128(&tmp, tmp.lo, 10);
       *cursor++ = (char)tmp.hi + '0';
    }

The loop emits a digit each pass and breaks when the digit count reaches
`precision`, so it is driven by `fuel = precision - (cursor - buf)`, which
the break condition makes exact.  Returns the emitted digits in order and
whether the round-up branch (`(R128_S64)tmp.lo < 0` at the cut) was taken. -/
def r128__fracLoop (fullPrecision : Bool) (precision : Nat) :
    Nat → Nat → List Nat × Bool
  | 0, lo =>
    ([], (decide (lo ≠ 0) || (fullPrecision && decide (precision ≠ 0)))
          && decide (2 ^ 63 ≤ lo))
  | fuel + 1, lo =>
    if lo ≠ 0 ∨ (fullPrecision ∧ precision ≠ 0) then
      ((lo * 10 / W64) ::
        (r128__fracLoop fullPrecision precision fuel (lo * 10 % W64)).1,
       (r128__fracLoop fullPrecision precision fuel (lo * 10 % W64)).2)
    else ([], false)

/-- The round-up carry walk of `r128__format`, on the reversed digit buffer:
increment the last digit; digits that overflow `'9'` become `'0'` and the
carry moves left; a carry that leaves the buffer is reported (it increments
the whole part). -/
def r128__bumpRev : List Nat → List Nat × Bool
  | [] => ([], true)
  | d :: rest =>
    if d + 1 ≤ 9 then ((d + 1) :: rest, false)
    else ((0 :: (r128__bumpRev rest).1), (r128__bumpRev rest).2)

/-- Round-up propagation over the fractional digit buffer (in emission
order): `r128__bumpRev` applied from the last digit backwards. -/
def r128__bump (ds : List Nat) : List Nat × Bool :=
  ((r128__bumpRev ds.reverse).1.reverse, (r128__bumpRev ds.reverse).2)

/-- The whole-part loop of `r128__format`, least-significant digit first:
`do { *cursor++ = whole % 10 + '0'; whole /= 10; } while (whole);`.
A 64-bit `whole` has at most 20 digits, so fuel 64 never runs out. -/
def r128__wholeRevFuel : Nat → Nat → List Nat
  | 0, w => [w % 10]
  | fuel + 1, w => if w / 10 = 0 then [w % 10] else (w % 10) :: r128__wholeRevFuel fuel (w / 10)

/-- Decimal digits of the whole part, least-significant first (at least
one digit, as the C do-while emits `"0"` for zero). -/
def r128__wholeRev (w : Nat) : List Nat := r128__wholeRevFuel 64 w

/-- The full character sequence `r128__format` emits through `R128__WRITE`
when the buffer never runs out (digit generation, sign and padding assembly,
trailing zeroes), translated block for block from the source. -/
def r128__emit (v : R128) (f : R128ToStringFormat) : List Char :=
  let sign := r128IsNeg v
  let tmp := if sign then r128Neg v else v
  let width : Int := if f.width < 0 then 0 else f.width
  -- precision < 0: "print a maximum of 20 digits" (fullPrecision = 0);
  -- precision > sizeof(buf) - 21 = 107: clamp and emit `trail` zeroes at the end
  let fullPrecision := decide (0 ≤ f.precision)
  let precision : Nat :=
    if f.precision < 0 then 20 else if 107 < f.precision then 107 else f.precision.toNat
  let trail : Nat := if 107 < f.precision then (f.precision - 107).toNat else 0
  let hasFrac := tmp.lo ≠ 0 ∨ f.decimal
  let fracOut := if hasFrac then r128__fracLoop fullPrecision precision precision tmp.lo
                 else ([], false)
  let bumped := if fracOut.2 then r128__bump fracOut.1 else (fracOut.1, false)
  let ds := bumped.1
  let whole := (tmp.hi + if bumped.2 then 1 else 0) % W64
  let point := hasFrac ∧ (f.decimal ∨ precision ≠ 0)
  let wholeR := r128__wholeRev whole
  let bufLen : Nat := ds.length + (if point then 1 else 0) + wholeR.length
  let padCnt0 : Int := width - bufLen - 1
  let signChar : Option Char :=
    if sign then some '-'
    else if f.sign = R128ToStringSign.plus then some '+'
    else if f.sign = R128ToStringSign.space then some ' '
    else none
  -- left padding block (skipped when left-aligning); the pad loop
  -- `for (; padCnt > 0; --padCnt)` leaves padCnt = min(padCnt, 0)
  let stage1 : List Char × Int :=
    if ¬f.leftAlign then
      let padChar := if f.zeroPad then '0' else ' '
      let sp : List Char × Int :=
        if f.zeroPad then
          match signChar with
          | some c => ([c], padCnt0)
          | none => ([], padCnt0 + 1)
        else ([], padCnt0)
      (sp.1 ++ List.replicate sp.2.toNat padChar, if sp.2 > 0 then 0 else sp.2)
    else ([], padCnt0)
  -- sign block for the space-padded and left-aligned cases
  let stage2 : List Char × Int :=
    if f.leftAlign ∨ ¬f.zeroPad then
      match signChar with
      | some c => ([c], stage1.2)
      | none => ([], stage1.2 + 1)
    else ([], stage1.2)
  -- whole part reversed (most significant first), then the decimal point at
  -- buf[decimal], then the fractional digits forward
  let content := wholeR.reverse.map digitChar
    ++ (if point then [R128_decimal] else [])
    ++ ds.map digitChar
  let rightPad :=
    if f.leftAlign then List.replicate stage2.2.toNat (if f.zeroPad then '0' else ' ')
    else []
  stage1.1 ++ stage2.1 ++ content ++ rightPad ++ List.replicate trail '0'

/-- The `R128__WRITE` macro, `if (dstSize-- == 1) goto finish; *dstp++ = c;`,
iterated over the emitted characters: writes while more than one byte of the
buffer remains.  (`dstSize = 0` breaches the asserted precondition
`dstSize > 0` and is modelled as writing nothing.) -/
def r128__write : Nat → List Char → List Char
  | _, [] => []
  | dstSize, c :: rest => if dstSize ≤ 1 then [] else c :: r128__write (dstSize - 1) rest

/-- `r128__format(dst, dstSize, v, format)`: all bytes stored into the buffer
(the written characters followed by the `'\0'` stored at `finish:`) together
with the return value `(int)(dstp - dst)`. -/
def r128__format (dstSize : Nat) (v : R128) (f : R128ToStringFormat) :
    List Char × Nat :=
  ((r128__write dstSize (r128__emit v f)) ++ [Char.ofNat 0],
   (r128__write dstSize (r128__emit v f)).length)

/-- `r128ToString(dst, dstSize, v)` with a buffer large enough to never
truncate: the characters produced under `R128__defaultFormat` ("%f"). -/
def r128ToString (v : R128) : List Char := r128__emit v R128__defaultFormat

/-- Whitespace test of `r128FromString`:
`' '`, `'\t'`, `'\r'`, `'\n'`, `'\v'`. -/
def r128__isWs (c : Char) : Bool :=
  c = ' ' || c = '\t' || c = '\r' || c = '\n' || c = '\x0b'

/-- Digit classification of the parser's whole-part loop: `0-9` always,
`a-f`/`A-F` only in base 16. -/
def r128__digitVal (base : Nat) (c : Char) : Option Nat :=
  if '0' ≤ c ∧ c ≤ '9' then some (c.toNat - 48)
  else if base = 16 ∧ 'a' ≤ c ∧ c ≤ 'f' then some (c.toNat - 97 + 10)
  else if base = 16 ∧ 'A' ≤ c ∧ c ≤ 'F' then some (c.toNat - 65 + 10)
  else none

/-- The whole-part loop of `r128FromString`: `hi = hi * base + digit` on a
64-bit accumulator (wrapping), stopping at the first non-digit; returns the
accumulator and the unconsumed tail. -/
def r128__wholeLoop (base : Nat) : List Char → Nat → Nat × List Char
  | [], hi => (hi, [])
  | c :: rest, hi =>
    match r128__digitVal base c with
    | some d => r128__wholeLoop base rest ((hi * base + d) % W64)
    | none => (hi, c :: rest)

/-- The fractional digit run scan of `r128FromString` (forward pass that
finds the last digit): the maximal prefix of digits in the active base. -/
def r128__fracRun (base : Nat) : List Char → List Nat
  | [] => []
  | c :: rest =>
    match r128__digitVal base c with
    | some d => d :: r128__fracRun base rest
    | none => []

/-- The right-to-left fractional reconstruction of `r128FromString`:
`lo = r128__udiv128(lo, digit, base, &unused)` for each digit from the last
to the first. -/
def r128__fracParse (base : Nat) (ds : List Nat) : Nat :=
  ds.foldr (fun d lo => (r128__udiv128 lo d base).1) 0

/-- `r128FromString(dst, s, endptr)` (the parsed value; the end pointer is
not modelled): skip whitespace, optional sign, optional `0x`/`0X` prefix,
whole part, then the fractional part after the decimal separator. -/
def r128FromString (s : List Char) : R128 :=
  let s1 := s.dropWhile r128__isWs
  let signAnd : Bool × List Char :=
    match s1 with
    | '-' :: r => (true, r)
    | '+' :: r => (false, r)
    | r => (false, r)
  let baseAnd : Nat × List Char :=
    match signAnd.2 with
    | '0' :: 'x' :: r => (16, r)
    | '0' :: 'X' :: r => (16, r)
    | r => (10, r)
  let whole := r128__wholeLoop baseAnd.1 baseAnd.2 0
  let lo : Nat :=
    match whole.2 with
    | c :: r => if c = R128_decimal then r128__fracParse baseAnd.1 (r128__fracRun baseAnd.1 r) else 0
    | [] => 0
  let dst : R128 := ⟨lo, whole.1⟩
  if signAnd.1 then r128Neg dst else dst

/-! ## Helper lemmas -/

/-- Negation always produces well-formed limbs. -/
theorem r128Neg_wf (v : R128) : (r128Neg v).wf := by
  constructor
  · exact Nat.mod_lt _ (by norm_num [W64])
  · exact Nat.mod_lt _ (by norm_num [W64])

/-- Two's-complement negation is an involution on well-formed values. -/
theorem r128Neg_neg (v : R128) (h : v.wf) : r128Neg (r128Neg v) = v := by
  obtain ⟨lo, hi⟩ := v
  obtain ⟨h1, h2⟩ := h
  simp only [W64] at h1 h2
  simp only [r128Neg, W64, R128.mk.injEq]
  constructor
  · omega
  · omega

/-- The Q64.64 magnitude multiply by `R128_one` is the identity on
well-formed values. -/
theorem r128__umul_one (a : R128) (h : a.wf) : r128__umul a R128_one = a := by
  obtain ⟨lo, hi⟩ := a
  obtain ⟨h1, h2⟩ := h
  simp only [W64] at h1 h2
  simp only [r128__umul, R128_one, W64, W128, R128.mk.injEq]
  constructor
  · omega
  · omega

/-! ## Claims -/

/-- Claim C1.  The decimal round-trip at full precision fails: formatting
`R128_smallest` (= 2^-64) with the default format produces
`"0.00000000000000000005"`, and `r128FromString` parses that string back to
`R128_zero`, not to `R128_smallest`.  (The header's own documentation states
that 20 places suffice for `r128FromString` to convert back to the original
value.) -/
theorem c1_default_roundtrip_fails_on_smallest :
    r128ToString R128_smallest = "0.00000000000000000005".toList ∧
    r128FromString (r128ToString R128_smallest) = R128_zero ∧
    R128_zero ≠ R128_smallest := by decide

/-- Claim C2.  `r128__ucmp` is not the lexicographic order on `(hi, lo)`:
it returns `-1` on equal operands (the claim requires `0`) and `0` on
operands that differ in `hi` but agree in `lo` (the claim requires a positive
result for the greater one). -/
theorem c2_ucmp_not_lexicographic :
    r128__ucmp R128_zero R128_zero = -1 ∧
    r128__ucmp ⟨0, 1⟩ ⟨0, 0⟩ = 0 := by decide

/-- Claim C3.  The high-digit refinement of `r128__udiv` does not produce the
true quotient digit.  For dividend `(hi = 2^63, lo = 3)` and divisor
`(hi = 2^63, lo = 5)` the normalization is the identity (limbs `n3 = 0`,
`n2 = 2^63`, `n1 = 3`, `d1 = 2^63`, `d0 = 5`), the trial digit is
`q1 = 1` with remainder `0`; `q1·d0 = 5` exceeds `(r:n1) = 3`, yet the
refinement loop never fires because `r128__ucmp` returns `-1` whenever the
`hi` words are equal, so `q1` stays `1` while the true quotient digit
`⌊(n3:n2:n1) / (d1:d0)⌋` is `0`; the subsequent subtraction then wraps and
leaves `n2 = 2^64 - 1`, violating the source's own `R128_ASSERT(n2 < d1)`. -/
theorem c3_high_digit_refinement_wrong :
    r128__norm ⟨3, 2 ^ 63⟩ ⟨5, 2 ^ 63⟩ = (⟨3, 2 ^ 63⟩, ⟨5, 2 ^ 63⟩, 0, false) ∧
    r128__udiv128 (2 ^ 63) 0 (2 ^ 63) = (1, 0) ∧
    r128__refine 5 3 refineFuel 1 ⟨3, 0⟩ = (1, ⟨3, 0⟩) ∧
    (0 * W128 + 2 ^ 63 * W64 + 3) / (2 ^ 63 * W64 + 5) = 0 ∧
    (r128Sub ⟨3, 2 ^ 63⟩
        (r128Add (r128__umul128 1 5) ⟨0, (r128__umul128 1 (2 ^ 63)).lo⟩)).hi
      = W64 - 1 ∧
    ¬ (r128Sub ⟨3, 2 ^ 63⟩
        (r128Add (r128__umul128 1 5) ⟨0, (r128__umul128 1 (2 ^ 63)).lo⟩)).hi
      < 2 ^ 63 := by decide

/-- Claim C4.  `r128Ceil` is not round-toward-plus-infinity: for
`v = 1/2` (lo = 2^63, hi = 0), which is positive with nonzero `lo`, the code
tests `(R128_S64)v->hi > 0` and therefore preserves `hi`, returning
`R128_zero` instead of `R128_one`. -/
theorem c4_ceil_of_half_is_zero :
    r128Ceil ⟨2 ^ 63, 0⟩ = R128_zero ∧ R128_zero ≠ R128_one := by decide

/-- Claim C8.  `r128ToInt` does return the signed `hi` (the mathematical
floor), but `r128FromInt (r128ToInt v)` differs from `r128Floor v` on
negative values with nonzero `lo`: for `v = -1.5` (hi = 2^64 - 2,
lo = 2^63), `r128ToInt v = -2` and `r128FromInt` gives back `hi = 2^64 - 2`,
while `r128Floor` decrements `hi` once more to `2^64 - 3` (i.e. -3). -/
theorem c8_to_int_floor_mismatch :
    r128ToInt ⟨2 ^ 63, W64 - 2⟩ = -2 ∧
    r128FromInt (r128ToInt ⟨2 ^ 63, W64 - 2⟩) = ⟨0, W64 - 2⟩ ∧
    r128Floor ⟨2 ^ 63, W64 - 2⟩ = ⟨0, W64 - 3⟩ ∧
    r128FromInt (r128ToInt ⟨2 ^ 63, W64 - 2⟩) ≠ r128Floor ⟨2 ^ 63, W64 - 2⟩ := by
  decide

/-- Claim C5, counterexample.  `shl(v, k) = shr(v, -k)` fails already at
`v = R128_smallest`, `k = 1`: both shift functions reduce their amount
modulo 128, so `shr(v, -1)` is a logical right shift by 127, not a left
shift by 1. -/
theorem c5_counterexample_shl_ne_shr_neg :
    r128Shl R128_smallest 1 = ⟨2, 0⟩ ∧
    r128Shr R128_smallest (-1) = R128_zero ∧
    r128Shl R128_smallest 1 ≠ r128Shr R128_smallest (-1) := by decide

/-- Claim C5, amended.  Shift amounts are interpreted modulo 128 in the same
direction: for `1 ≤ k ≤ 127`, `shl(v, -k) = shl(v, 128 - k)` and
`shr(v, -k) = shr(v, 128 - k)`; the identity `shl(v, k) = shr(v, -k)` holds
at `k = 0`, where both are the identity. -/
theorem c5_amended_shift_mod_128 (v : R128) (k : Int) (_h1 : 1 ≤ k) (_h2 : k ≤ 127) :
    r128Shl v (-k) = r128Shl v (128 - k) ∧
    r128Shr v (-k) = r128Shr v (128 - k) ∧
    r128Shl v 0 = v ∧ r128Shr v 0 = v := by
  have hm : (-k) % 128 = (128 - k) % 128 := by omega
  refine ⟨?_, ?_, ?_, ?_⟩
  · unfold r128Shl; rw [hm]
  · unfold r128Shr; rw [hm]
  · unfold r128Shl; norm_num
  · unfold r128Shr; norm_num

/-- Witness for the amended C5 at `v = R128_smallest`, `k = 3`. -/
theorem c5_amended_witness :
    (1 : Int) ≤ 3 ∧ (3 : Int) ≤ 127 ∧
    (r128Shl R128_smallest (-3) = r128Shl R128_smallest (128 - 3) ∧
     r128Shr R128_smallest (-3) = r128Shr R128_smallest (128 - 3) ∧
     r128Shl R128_smallest 0 = R128_smallest ∧
     r128Shr R128_smallest 0 = R128_smallest) :=
  ⟨by norm_num, by norm_num,
   c5_amended_shift_mod_128 R128_smallest 3 (by norm_num) (by norm_num)⟩

/-- Claim C6.  Division by `R128_zero` saturates: `R128_max` for a
non-negative dividend (including zero), `R128_min` for a negative one; in
particular `div(ONE, ZERO) = MAX` and `div(-ONE, ZERO) = MIN`. -/
theorem c6_div_by_zero_saturates (a : R128) :
    r128Div a R128_zero = (if r128IsNeg a then R128_min else R128_max) ∧
    r128Div R128_one R128_zero = R128_max ∧
    r128Div (r128Neg R128_one) R128_zero = R128_min ∧
    r128Div R128_zero R128_zero = R128_max := by
  refine ⟨?_, by decide, by decide, by decide⟩
  unfold r128Div
  simp [R128_zero]

/-- Claim C7.  `R128_one` is a multiplicative identity:
`r128Mul v R128_one = v` for every well-formed `v` (including `R128_min`,
whose magnitude negation wraps onto itself, and `R128_max`). -/
theorem c7_mul_one_identity (v : R128) (h : v.wf) : r128Mul v R128_one = v := by
  have hone : r128IsNeg R128_one = false := by decide
  cases hv : r128IsNeg v with
  | false => simp [r128Mul, hone, hv, r128__umul_one v h]
  | true =>
    simp [r128Mul, hone, hv, r128__umul_one (r128Neg v) (r128Neg_wf v)]
    exact r128Neg_neg v h

/-- Witness for C7 at `v = R128_min`. -/
theorem c7_witness : R128.wf R128_min ∧ r128Mul R128_min R128_one = R128_min :=
  ⟨by decide, c7_mul_one_identity R128_min (by decide)⟩

/-- The `R128__WRITE` loop keeps exactly the first `dstSize - 1` characters
of the emitted sequence. -/
theorem r128__write_eq_take (cs : List Char) : ∀ n, r128__write n cs = cs.take (n - 1) := by
  induction cs with
  | nil => intro n; simp [r128__write]
  | cons c rest ih =>
    intro n
    by_cases h : n ≤ 1
    · have h0 : n - 1 = 0 := by omega
      simp [r128__write, h, h0]
    · have h2 : n - 1 = (n - 2) + 1 := by omega
      have h3 : n - 1 - 1 = n - 2 := by omega
      simp only [r128__write, if_neg h, h2, List.take_succ_cons, ih, h3,
        Nat.add_sub_cancel]

/-- Claim C9.  For every value, format record and buffer size `dstSize ≥ 1`,
`r128__format` stores at most `dstSize` bytes, the last stored byte is the
null terminator, and the return value is the number of characters before the
terminator, hence at most `dstSize - 1` — also under truncation. -/
theorem c9_format_truncation_safe (v : R128) (f : R128ToStringFormat)
    (n : Nat) (h : 1 ≤ n) :
    (r128__format n v f).1.length ≤ n ∧
    (r128__format n v f).1.getLast? = some (Char.ofNat 0) ∧
    (r128__format n v f).2 = (r128__format n v f).1.length - 1 ∧
    (r128__format n v f).2 ≤ n - 1 := by
  unfold r128__format
  rw [r128__write_eq_take]
  have hl := List.length_take_le (n - 1) (r128__emit v f)
  refine ⟨?_, ?_, ?_, ?_⟩
  · simp only [List.length_append, List.length_cons, List.length_nil]
    omega
  · exact List.getLast?_concat _
  · simp
  · omega

/-- Witness for C9 at `v = R128_one`, the default format, `dstSize = 4`
(a truncating size: the full output would be `"1"` plus terminator, and a
width-0 record emits one character). -/
theorem c9_witness :
    1 ≤ 4 ∧
    ((r128__format 4 R128_one R128__defaultFormat).1.length ≤ 4 ∧
     (r128__format 4 R128_one R128__defaultFormat).1.getLast? = some (Char.ofNat 0) ∧
     (r128__format 4 R128_one R128__defaultFormat).2
       = (r128__format 4 R128_one R128__defaultFormat).1.length - 1 ∧
     (r128__format 4 R128_one R128__defaultFormat).2 ≤ 4 - 1) :=
  ⟨by decide, c9_format_truncation_safe R128_one R128__defaultFormat 4 (by decide)⟩

/-- The parser's whole-part accumulator computes the digit string's value
modulo 2^64. -/
theorem r128__wholeLoop_mod (cs : List Char) (h : ∀ c ∈ cs, '0' ≤ c ∧ c ≤ '9') :
    ∀ acc, (r128__wholeLoop 10 cs (acc % W64)).1
      = (cs.foldl (fun a c => a * 10 + (c.toNat - 48)) acc) % W64 := by
  induction cs with
  | nil => intro acc; simp [r128__wholeLoop]
  | cons c rest ih =>
    intro acc
    have hc := h c (by simp)
    have hd : r128__digitVal 10 c = some (c.toNat - 48) := by
      simp only [r128__digitVal]
      rw [if_pos ⟨hc.1, hc.2⟩]
    simp only [r128__wholeLoop, hd, List.foldl_cons]
    have heq : (acc % W64 * 10 + (c.toNat - 48)) % W64
        = (acc * 10 + (c.toNat - 48)) % W64 := by
      simp only [W64]
      omega
    rw [heq]
    exact ih (fun x hx => h x (by simp [hx])) (acc * 10 + (c.toNat - 48))

/-- Claim C10.  The whole part is accumulated as `hi = hi*10 + digit` on a
64-bit word with no overflow check, so a decimal digit string parses to its
value reduced modulo 2^64; in particular `"18446744073709551616"` (= 2^64)
parses to `R128_zero`. -/
theorem c10_whole_part_wraps_mod_2_64 (cs : List Char)
    (h : ∀ c ∈ cs, '0' ≤ c ∧ c ≤ '9') :
    (r128__wholeLoop 10 cs 0).1
      = (cs.foldl (fun a c => a * 10 + (c.toNat - 48)) 0) % W64 ∧
    r128FromString "18446744073709551616".toList = R128_zero := by
  constructor
  · have := r128__wholeLoop_mod cs h 0
    simpa using this
  · decide

/-- Witness for C10 at the digit string `"18446744073709551616"`. -/
theorem c10_witness :
    (∀ c ∈ "18446744073709551616".toList, '0' ≤ c ∧ c ≤ '9') ∧
    ((r128__wholeLoop 10 "18446744073709551616".toList 0).1
       = ("18446744073709551616".toList.foldl
            (fun a c => a * 10 + (c.toNat - 48)) 0) % W64 ∧
     r128FromString "18446744073709551616".toList = R128_zero) :=
  ⟨by decide, c10_whole_part_wraps_mod_2_64 "18446744073709551616".toList (by decide)⟩
